import Mathlib

/-!
A shallow embedding of `main.go` and `obtain-userids/main.go` of neos-autominer.

Go `string` values are modelled as lists of Unicode code points (`List Char`), i.e. as valid
UTF-8 text; Go `int` is the 64-bit signed integer, modelled as `Int` with the range checks of
`strconv` made explicit.  The network, the file system and `encoding/json` are inputs of the
model: a call that talks to the outside world takes the observed outcome of that call as an
argument.
-/

namespace NeosAutominer

/-- A Go `string`, as the list of its code points. -/
abbrev GoString := List Char

deriving instance DecidableEq for Except

/-! ## `strconv.Atoi` -/

/-- The two causes carried by a `*strconv.NumError`: `strconv.ErrSyntax` and `strconv.ErrRange`. -/
inductive NumErrKind where
  | ErrSyntax
  | ErrRange
  deriving DecidableEq, Repr

/-- The error `*strconv.NumError`: the text that failed to convert and the cause. -/
structure NumError where
  Num : GoString
  Err : NumErrKind
  deriving DecidableEq, Repr

/-- The test `'0' <= c && c <= '9'` of `strconv.ParseUint` in base 10. -/
def isDigit (c : Char) : Bool := decide (48 ≤ c.toNat) && decide (c.toNat ≤ 57)

/-- The value `c - '0'` of a decimal digit. -/
def digitVal (c : Char) : Nat := c.toNat - 48

/-- The largest `uint64`. -/
def maxUint64 : Nat := 2 ^ 64 - 1

/-- The digit loop of `strconv.ParseUint(s, 10, 64)`: a byte that is no digit is a syntax error,
an accumulator that leaves the `uint64` range is a range error, whichever comes first. -/
def parseUintLoop : GoString → Nat → Except NumErrKind Nat
  | [], n => .ok n
  | c :: cs, n =>
    if !isDigit c then .error .ErrSyntax
    else if n ≥ maxUint64 / 10 + 1 then .error .ErrRange
    else if n * 10 + digitVal c > maxUint64 then .error .ErrRange
    else parseUintLoop cs (n * 10 + digitVal c)

/-- The function `strconv.ParseUint(s, 10, 64)`; the empty text is a syntax error. -/
def ParseUint (s : GoString) : Except NumErrKind Nat :=
  match s with
  | [] => .error .ErrSyntax
  | _ => parseUintLoop s 0

/-- The function `strconv.ParseInt(s, 10, 0)` with 64-bit `int`: an optional sign, then
`ParseUint`, then the check against `cutoff = 2^63`. -/
def ParseInt (s : GoString) : Except NumError Int :=
  match s with
  | [] => .error ⟨s, .ErrSyntax⟩
  | c :: rest =>
    let neg : Bool := c = '-'
    let digits : GoString := if c = '+' ∨ c = '-' then rest else s
    match ParseUint digits with
    | .error .ErrSyntax => .error ⟨s, .ErrSyntax⟩
    | .error .ErrRange => .error ⟨s, .ErrRange⟩
    | .ok un =>
      if !neg && decide (un ≥ 2 ^ 63) then .error ⟨s, .ErrRange⟩
      else if neg && decide (un > 2 ^ 63) then .error ⟨s, .ErrRange⟩
      else .ok (if neg then -(un : Int) else (un : Int))

/-- The function `strconv.Atoi`.  Its fast path for short inputs computes the same result as
`ParseInt(s, 10, 0)`, which is the path modelled here. -/
def Atoi (s : GoString) : Except NumError Int := ParseInt s

/-! ## Errors, HTTP exchanges, jobs -/

/-- The values of Go type `error` that the program handles: its six sentinel errors, and the
errors handed up from `strconv`, `net/http`, `io`, `encoding/json` and `os`. -/
inductive GoError where
  | ErrBadStatus
  | ErrUserNotFound
  | ErrDatabaseIssue
  | ErrUnknownError
  | ErrUnknownMeteor
  | ErrMeteorAlreadyMined
  | numError (e : NumError)
  | requestError (msg : String)
  | transportError (msg : String)
  | readError (msg : String)
  | jsonError (msg : String)
  | fileError (msg : String)
  deriving DecidableEq, Repr

/-- What one HTTP call is observed to do: building the request fails, the round trip fails, or
a response arrives with a status code and a body that `io.ReadAll` either reads or fails on. -/
inductive HttpExchange where
  | requestError (msg : String)
  | transportError (msg : String)
  | response (StatusCode : Int) (body : Except String GoString)
  deriving Repr

/-- The struct `Meteor`. -/
structure Meteor where
  Id : Int
  Nuggets : Int
  deriving DecidableEq, Repr

/-- The struct `JobGetUserMeteors`. -/
structure JobGetUserMeteors where
  user : GoString
  deriving DecidableEq, Repr

/-- The struct `JobMineUserMeteor`. -/
structure JobMineUserMeteor where
  user : GoString
  id : Int
  deriving DecidableEq, Repr

/-- The constant `http.StatusOK`. -/
def StatusOK : Int := 200

/-- The method `(*JobMineUserMeteor).Do`, given what the POST to
`/v1/meteors/<user>/mined/<id>` is observed to do.  `none` is the `nil` error. -/
def JobMineUserMeteor.Do (_j : JobMineUserMeteor) (x : HttpExchange) : Option GoError :=
  match x with
  | .requestError msg => some (.requestError msg)
  | .transportError msg => some (.transportError msg)
  | .response _ (.error msg) => some (.readError msg)
  | .response _ (.ok body) =>
    match Atoi body with
    | .error e => some (.numError e)
    | .ok number =>
      if number = -1 then some .ErrUnknownMeteor
      else if number = 0 then some .ErrMeteorAlreadyMined
      else if number = 1 then none
      else some .ErrUnknownError

/-- The function `getMeteors`, given what the GET of `/v1/meteors/<user>` is observed to do and
the behaviour `unmarshal` of `json.Unmarshal` into `struct { Meteors []Meteor }`. -/
def getMeteors (unmarshal : GoString → Except String (List Meteor)) (x : HttpExchange)
    (_user : GoString) : Except GoError (List Meteor) :=
  match x with
  | .requestError msg => .error (.requestError msg)
  | .transportError msg => .error (.transportError msg)
  | .response code bodyRead =>
    if code ≠ StatusOK then .error .ErrBadStatus
    else
      match bodyRead with
      | .error msg => .error (.readError msg)
      | .ok body =>
        match Atoi body with
        | .ok number =>
          if number = -1 then .error .ErrUserNotFound
          else if number = -2 then .error .ErrDatabaseIssue
          else .error .ErrUnknownError
        | .error _ =>
          match unmarshal body with
          | .error msg => .error (.jsonError msg)
          | .ok meteors => .ok meteors

/-- The method `(*JobGetUserMeteors).Do`. -/
def JobGetUserMeteors.Do (unmarshal : GoString → Except String (List Meteor))
    (j : JobGetUserMeteors) (x : HttpExchange) : Except GoError (List Meteor) :=
  match getMeteors unmarshal x j.user with
  | .error err => .error err
  | .ok meteors => .ok meteors

/-! ## The account list file -/

/-- The function `strings.Split(s, sep)` for a separator `sep` of one character: the pieces of
`s` between the occurrences of `sep`, of which there is always at least one. -/
def Split (s : GoString) (sep : Char) : List GoString :=
  match s with
  | [] => [[]]
  | c :: cs =>
    if c = sep then [] :: Split cs sep
    else
      match Split cs sep with
      | [] => [[c]]
      | piece :: pieces => (c :: piece) :: pieces

/-- The function `unicode.IsSpace`: the Latin-1 white space characters and the other code points
with the Unicode property `White_Space`. -/
def IsSpace (r : Char) : Bool :=
  let n := r.toNat
  if n ≤ 0xFF then
    n = 0x09 || n = 0x0A || n = 0x0B || n = 0x0C || n = 0x0D || n = 0x20 || n = 0x85 || n = 0xA0
  else
    n = 0x1680 || (decide (0x2000 ≤ n) && decide (n ≤ 0x200A)) || n = 0x2028 || n = 0x2029
      || n = 0x202F || n = 0x205F || n = 0x3000

/-- The function `strings.TrimSpace`: `s` without its leading and trailing white space. -/
def TrimSpace (s : GoString) : GoString :=
  ((s.dropWhile IsSpace).reverse.dropWhile IsSpace).reverse

/-- The function `getUserIDsFromFile`, given what opening and reading the file is observed to
do: an error, or the text of the file. -/
def getUserIDsFromFile (fileRead : Except String GoString) : Except GoError (List GoString) :=
  match fileRead with
  | .error msg => .error (.fileError msg)
  | .ok text =>
    let users := Split text '\n'
    .ok (users.foldl (fun result str => if str = [] then result else result ++ [TrimSpace str]) [])

/-! ## Startup -/

/-- How far `main` gets before its scheduler loop: it prints the usage and returns, it panics,
or it creates the two queues with capacities `getMeteorsCount` and `mineMeteorsCount`, starts
that many discovery and processing workers, and enters the scheduler loop over `userIDs`. -/
inductive Startup where
  | usage
  | panicked (msg : String)
  | running (userIDs : List GoString) (getMeteorsCount mineMeteorsCount : Int)
  deriving DecidableEq, Repr

/-- The number of goroutines started by `for i := 0; i < count; i++ { go ... }`. -/
def workersStarted (count : Int) : Nat := count.toNat

/-- The function `main` up to its scheduler loop.  `u` and `f` are the values of the flags
`-u` and `-f`, `fileRead` is what reading the file named by `-f` is observed to do, and `NumCPU`
is the value of `runtime.NumCPU()`. -/
def main (u f : GoString) (fileRead : Except String GoString) (NumCPU : Int) : Startup :=
  if u = [] ∧ f = [] then .usage
  else
    let userIDs₀ : List GoString := []
    let userIDs₁ := if u ≠ [] then userIDs₀ ++ [u] else userIDs₀
    let userIDs₂ :=
      if f ≠ [] then
        match getUserIDsFromFile fileRead with
        | .error _ => userIDs₁
        | .ok userIDsFromFile => userIDs₁ ++ userIDsFromFile
      else userIDs₁
    let getMeteorsCount := NumCPU.tdiv 4
    let mineMeteorsCount := NumCPU - getMeteorsCount
    if getMeteorsCount < 0 ∨ mineMeteorsCount < 0 then
      .panicked "Unable to assign enough goroutines to mining/getting."
    else .running userIDs₂ getMeteorsCount mineMeteorsCount

/-! ## The worker loops

A queue is modelled by the sequence of the jobs sent on it so far.  Of the log only the lines
written by the worker loops themselves are kept. -/

/-- The log lines of the two worker loops. -/
inductive LogLine where
  | gotGetJob (user : GoString)
  | getError (err : GoError)
  | gotMineJob (id : Int) (user : GoString)
  | mineError (err : GoError)
  | mined (id : Int) (user : GoString)
  deriving DecidableEq, Repr

/-- One iteration of the loop of a discovery worker on the received `job`: the lines it logs and
the processing queue after it, `jobQueueMineUserMeteor` being the queue before it. -/
def discoveryWorkerStep (unmarshal : GoString → Except String (List Meteor))
    (job : JobGetUserMeteors) (x : HttpExchange)
    (jobQueueMineUserMeteor : List JobMineUserMeteor) :
    List LogLine × List JobMineUserMeteor :=
  match job.Do unmarshal x with
  | .error err => ([.gotGetJob job.user, .getError err], jobQueueMineUserMeteor)
  | .ok meteors =>
    ([.gotGetJob job.user],
      meteors.foldl (fun queue meteor => queue ++ [⟨job.user, meteor.Id⟩])
        jobQueueMineUserMeteor)

/-- One iteration of the loop of a processing worker on the received `job`: the lines it
logs. -/
def processingWorkerStep (job : JobMineUserMeteor) (x : HttpExchange) : List LogLine :=
  match job.Do x with
  | some err => [.gotMineJob job.id job.user, .mineError err]
  | none => [.gotMineJob job.id job.user, .mined job.id job.user]

/-! ## The scheduler loop

The scheduler loop talks to the rest of the program through the channel `jobQueueGetMeteors`
and through the ticker.  What it finds there at each of its moves is an input of the model. -/

/-- What the scheduler loop finds at one of its moves: the number of jobs in the buffer of
`jobQueueGetMeteors`, the number of discovery workers blocked in their receive from it, and
whether a tick is ready on the ticker. -/
structure Observation where
  buffered : Nat
  receiversWaiting : Nat
  tick : Bool
  deriving DecidableEq, Repr

/-- Whether the program can make the observation: the channel made by
`make(chan JobGetUserMeteors, getMeteorsCount)` buffers at most `getMeteorsCount` jobs, and no
more receivers wait than discovery workers were started. -/
def Observation.possible (getMeteorsCount : Int) (o : Observation) : Bool :=
  decide ((o.buffered : Int) ≤ max getMeteorsCount 0) &&
    decide (o.receiversWaiting ≤ workersStarted getMeteorsCount)

/-- Whether the send `jobQueueGetMeteors <- job` completes: the buffer has room, or a receiver
is waiting; otherwise the send blocks. -/
def sendCompletes (getMeteorsCount : Int) (o : Observation) : Bool :=
  decide ((o.buffered : Int) < getMeteorsCount) || decide (0 < o.receiversWaiting)

/-- The two states of the scheduler loop of `main`: inside `for _, user := range userIDs` with
the entries still to submit, and blocked in `<-ticker`. -/
inductive SchedulerState where
  | seeding (rest : List GoString)
  | waiting
  deriving DecidableEq, Repr

/-- One move of the scheduler loop under the observation `o`.  In `seeding` it sends the job of
the next entry when the send completes and stays blocked in the send when it does not, and it
leaves the inner loop when no entry is left; in `waiting` it starts the inner loop over when a
tick is ready and stays blocked when none is.  The result is the next state and the job sent,
if any. -/
def schedulerStep (userIDs : List GoString) (getMeteorsCount : Int) (o : Observation) :
    SchedulerState → SchedulerState × Option JobGetUserMeteors
  | .seeding (user :: rest) =>
    if sendCompletes getMeteorsCount o then (.seeding rest, some ⟨user⟩)
    else (.seeding (user :: rest), none)
  | .seeding [] => (.waiting, none)
  | .waiting => if o.tick then (.seeding userIDs, none) else (.waiting, none)

/-- The scheduler loop run from state `st`, one move per observation: the state reached and the
jobs sent on the discovery queue, in order. -/
def schedulerRun (userIDs : List GoString) (getMeteorsCount : Int) :
    List Observation → SchedulerState → SchedulerState × List JobGetUserMeteors
  | [], st => (st, [])
  | o :: observations, st =>
    let next := schedulerStep userIDs getMeteorsCount o st
    let rest := schedulerRun userIDs getMeteorsCount observations next.1
    (rest.1, next.2.toList ++ rest.2)

/-- The state in which `main` enters its scheduler loop. -/
def schedulerInit (userIDs : List GoString) : SchedulerState := .seeding userIDs

/-- The jobs that the scheduler has still to send in the current cycle. -/
def pendingJobs : SchedulerState → List JobGetUserMeteors
  | .seeding rest => rest.map (fun user => ⟨user⟩)
  | .waiting => []

/-! ## `obtain-userids` -/

/-- The loop `for i := 'a'; i <= 'z'; i++ { chars = append(chars, i) }` from counter `i`. -/
def charsLoop (i : Nat) (chars : List Char) : List Char :=
  if i ≤ 'z'.toNat then charsLoop (i + 1) (chars ++ [Char.ofNat i]) else chars
termination_by 'z'.toNat + 1 - i
decreasing_by
  have hz : 'z'.toNat = 122 := rfl
  simp_wf
  omega

/-- The function `getAll3LetterCombinations`. -/
def getAll3LetterCombinations : List GoString :=
  let chars := charsLoop 'a'.toNat []
  chars.foldl (fun combinations x =>
    chars.foldl (fun combinations y =>
      chars.foldl (fun combinations z => combinations ++ [[x, y, z]]) combinations)
      combinations) []

/-! ## The action client and the processing worker -/

/-- C1: for every action response body, `JobMineUserMeteor.Do` returns no error (Success) when
the body parses as 1, `ErrMeteorAlreadyMined` (AlreadyDone) when it parses as 0,
`ErrUnknownMeteor` (UnknownItem) when it parses as -1, `ErrUnknownError` when it parses as any
other integer, and when it does not parse as an integer the error of the parse, which is none
of the four integer outcomes. -/
theorem mine_do_classifies (j : JobMineUserMeteor) (code : Int) (body : GoString) :
    (Atoi body = .ok 1 → j.Do (.response code (.ok body)) = none) ∧
    (Atoi body = .ok 0 → j.Do (.response code (.ok body)) = some .ErrMeteorAlreadyMined) ∧
    (Atoi body = .ok (-1) → j.Do (.response code (.ok body)) = some .ErrUnknownMeteor) ∧
    (∀ n : Int, Atoi body = .ok n → n ≠ 1 → n ≠ 0 → n ≠ -1 →
      j.Do (.response code (.ok body)) = some .ErrUnknownError) ∧
    (∀ e : NumError, Atoi body = .error e →
      j.Do (.response code (.ok body)) = some (.numError e) ∧
      j.Do (.response code (.ok body)) ≠ none ∧
      j.Do (.response code (.ok body)) ≠ some .ErrMeteorAlreadyMined ∧
      j.Do (.response code (.ok body)) ≠ some .ErrUnknownMeteor ∧
      j.Do (.response code (.ok body)) ≠ some .ErrUnknownError) := by
  refine ⟨?_, ?_, ?_, ?_, ?_⟩
  · intro h
    simp [JobMineUserMeteor.Do, h]
  · intro h
    simp [JobMineUserMeteor.Do, h]
  · intro h
    simp [JobMineUserMeteor.Do, h]
  · intro n h h1 h0 hm
    simp [JobMineUserMeteor.Do, h, h1, h0, hm]
  · intro e h
    simp [JobMineUserMeteor.Do, h]

/-- Witness of C1: the bodies `1`, `0`, `-1`, `7` and `done` at the job of `alice` for item 5. -/
theorem mine_do_classifies_witness :
    JobMineUserMeteor.Do ⟨"alice".toList, 5⟩ (.response 200 (.ok "1".toList)) = none ∧
    JobMineUserMeteor.Do ⟨"alice".toList, 5⟩ (.response 200 (.ok "0".toList))
      = some .ErrMeteorAlreadyMined ∧
    JobMineUserMeteor.Do ⟨"alice".toList, 5⟩ (.response 200 (.ok "-1".toList))
      = some .ErrUnknownMeteor ∧
    JobMineUserMeteor.Do ⟨"alice".toList, 5⟩ (.response 200 (.ok "7".toList))
      = some .ErrUnknownError ∧
    JobMineUserMeteor.Do ⟨"alice".toList, 5⟩ (.response 200 (.ok "done".toList))
      = some (.numError ⟨"done".toList, .ErrSyntax⟩) :=
  ⟨(mine_do_classifies ⟨"alice".toList, 5⟩ 200 "1".toList).1 (by decide),
   (mine_do_classifies ⟨"alice".toList, 5⟩ 200 "0".toList).2.1 (by decide),
   (mine_do_classifies ⟨"alice".toList, 5⟩ 200 "-1".toList).2.2.1 (by decide),
   (mine_do_classifies ⟨"alice".toList, 5⟩ 200 "7".toList).2.2.2.1 7 (by decide)
     (by decide) (by decide) (by decide),
   ((mine_do_classifies ⟨"alice".toList, 5⟩ 200 "done".toList).2.2.2.2
     ⟨"done".toList, .ErrSyntax⟩ (by decide)).1⟩

/-- The processing worker logs the error that `Do` returns, and that the meteor was mined
when `Do` returns none. -/
theorem processingWorkerStep_eq (job : JobMineUserMeteor) (x : HttpExchange) :
    (∀ err, job.Do x = some err →
      processingWorkerStep job x = [.gotMineJob job.id job.user, .mineError err]) ∧
    (job.Do x = none →
      processingWorkerStep job x = [.gotMineJob job.id job.user, .mined job.id job.user]) := by
  constructor
  · intro err h
    simp [processingWorkerStep, h]
  · intro h
    simp [processingWorkerStep, h]

/-- C6, as the code has it: the processing worker takes its non-failure branch exactly when the
response body was read and parses as 1 (Success).  Every other outcome takes the failure branch
and is logged as an error: a body that parses as 0 (AlreadyDone) as `ErrMeteorAlreadyMined`, a
body that parses as -1 (UnknownItem) as `ErrUnknownMeteor`, a body that parses as another
integer as `ErrUnknownError`, a body that does not parse as the error of the parse, and a
failure to read the body, to make the round trip or to build the request as that failure. -/
theorem processing_worker_branches (job : JobMineUserMeteor) (x : HttpExchange) :
    (processingWorkerStep job x = [.gotMineJob job.id job.user, .mined job.id job.user] ↔
      ∃ code body, x = .response code (.ok body) ∧ Atoi body = .ok 1) ∧
    ((¬ ∃ code body, x = .response code (.ok body) ∧ Atoi body = .ok 1) →
      ∃ err, job.Do x = some err ∧
        processingWorkerStep job x = [.gotMineJob job.id job.user, .mineError err]) ∧
    (∀ code body, x = .response code (.ok body) → Atoi body = .ok 0 →
      processingWorkerStep job x
        = [.gotMineJob job.id job.user, .mineError .ErrMeteorAlreadyMined]) ∧
    (∀ code body, x = .response code (.ok body) → Atoi body = .ok (-1) →
      processingWorkerStep job x
        = [.gotMineJob job.id job.user, .mineError .ErrUnknownMeteor]) ∧
    (∀ code body n, x = .response code (.ok body) → Atoi body = .ok n →
      n ≠ 1 → n ≠ 0 → n ≠ -1 →
      processingWorkerStep job x
        = [.gotMineJob job.id job.user, .mineError .ErrUnknownError]) ∧
    (∀ code body e, x = .response code (.ok body) → Atoi body = .error e →
      processingWorkerStep job x
        = [.gotMineJob job.id job.user, .mineError (.numError e)]) ∧
    (∀ code msg, x = .response code (.error msg) →
      processingWorkerStep job x
        = [.gotMineJob job.id job.user, .mineError (.readError msg)]) ∧
    (∀ msg, x = .transportError msg →
      processingWorkerStep job x
        = [.gotMineJob job.id job.user, .mineError (.transportError msg)]) ∧
    (∀ msg, x = .requestError msg →
      processingWorkerStep job x
        = [.gotMineJob job.id job.user, .mineError (.requestError msg)]) := by
  have hiff : processingWorkerStep job x
      = [.gotMineJob job.id job.user, .mined job.id job.user] ↔
      ∃ code body, x = .response code (.ok body) ∧ Atoi body = .ok 1 := by
    constructor
    · intro h
      cases x with
      | requestError msg => simp [processingWorkerStep, JobMineUserMeteor.Do] at h
      | transportError msg => simp [processingWorkerStep, JobMineUserMeteor.Do] at h
      | response code bodyRead =>
        cases bodyRead with
        | error msg => simp [processingWorkerStep, JobMineUserMeteor.Do] at h
        | ok body =>
          refine ⟨code, body, rfl, ?_⟩
          cases hA : Atoi body with
          | error e => simp [processingWorkerStep, JobMineUserMeteor.Do, hA] at h
          | ok n =>
            by_cases h1 : n = 1
            · rw [h1]
            · exfalso
              by_cases hm : n = -1
              · simp [processingWorkerStep, JobMineUserMeteor.Do, hA, hm] at h
              · by_cases h0 : n = 0
                · simp [processingWorkerStep, JobMineUserMeteor.Do, hA, h0] at h
                · simp [processingWorkerStep, JobMineUserMeteor.Do, hA, hm, h0, h1] at h
    · rintro ⟨code, body, rfl, hA⟩
      simp [processingWorkerStep, JobMineUserMeteor.Do, hA]
  refine ⟨hiff, ?_, ?_, ?_, ?_, ?_, ?_, ?_, ?_⟩
  · intro hno
    cases hD : job.Do x with
    | some err => exact ⟨err, rfl, (processingWorkerStep_eq job x).1 err hD⟩
    | none => exact absurd (hiff.1 ((processingWorkerStep_eq job x).2 hD)) hno
  · rintro code body rfl hA
    simp [processingWorkerStep, JobMineUserMeteor.Do, hA]
  · rintro code body rfl hA
    simp [processingWorkerStep, JobMineUserMeteor.Do, hA]
  · rintro code body n rfl hA h1 h0 hm
    simp [processingWorkerStep, JobMineUserMeteor.Do, hA, h1, h0, hm]
  · rintro code body e rfl hA
    simp [processingWorkerStep, JobMineUserMeteor.Do, hA]
  · rintro code msg rfl
    simp [processingWorkerStep, JobMineUserMeteor.Do]
  · rintro msg rfl
    simp [processingWorkerStep, JobMineUserMeteor.Do]
  · rintro msg rfl
    simp [processingWorkerStep, JobMineUserMeteor.Do]

/-- Witness of C6 as amended, at the job of `alice` for item 5: the bodies `1`, `0`, `7` and
`done`, and a round trip that fails. -/
theorem processing_worker_branches_witness :
    processingWorkerStep ⟨"alice".toList, 5⟩ (.response 200 (.ok "1".toList))
      = [.gotMineJob 5 "alice".toList, .mined 5 "alice".toList] ∧
    processingWorkerStep ⟨"alice".toList, 5⟩ (.response 200 (.ok "0".toList))
      = [.gotMineJob 5 "alice".toList, .mineError .ErrMeteorAlreadyMined] ∧
    processingWorkerStep ⟨"alice".toList, 5⟩ (.response 200 (.ok "7".toList))
      = [.gotMineJob 5 "alice".toList, .mineError .ErrUnknownError] ∧
    processingWorkerStep ⟨"alice".toList, 5⟩ (.response 200 (.ok "done".toList))
      = [.gotMineJob 5 "alice".toList, .mineError (.numError ⟨"done".toList, .ErrSyntax⟩)] ∧
    processingWorkerStep ⟨"alice".toList, 5⟩ (.transportError "connection refused")
      = [.gotMineJob 5 "alice".toList, .mineError (.transportError "connection refused")] :=
  ⟨(processing_worker_branches ⟨"alice".toList, 5⟩ (.response 200 (.ok "1".toList))).1.2
      ⟨200, "1".toList, rfl, by decide⟩,
   (processing_worker_branches ⟨"alice".toList, 5⟩ (.response 200 (.ok "0".toList))).2.2.1
      200 "0".toList rfl (by decide),
   (processing_worker_branches ⟨"alice".toList, 5⟩
      (.response 200 (.ok "7".toList))).2.2.2.2.1
      200 "7".toList 7 rfl (by decide) (by decide) (by decide) (by decide),
   (processing_worker_branches ⟨"alice".toList, 5⟩
      (.response 200 (.ok "done".toList))).2.2.2.2.2.1
      200 "done".toList ⟨"done".toList, .ErrSyntax⟩ rfl (by decide),
   (processing_worker_branches ⟨"alice".toList, 5⟩
      (.transportError "connection refused")).2.2.2.2.2.2.2.1 "connection refused" rfl⟩

/-- C6 as stated fails: the body `0` parses as 0 (AlreadyDone), and the processing worker does
not take the non-failure branch that the body `1` takes but logs the error
`ErrMeteorAlreadyMined`. -/
theorem already_done_is_logged_as_error :
    Atoi "0".toList = .ok 0 ∧
    processingWorkerStep ⟨"alice".toList, 5⟩ (.response 200 (.ok "1".toList))
      = [.gotMineJob 5 "alice".toList, .mined 5 "alice".toList] ∧
    processingWorkerStep ⟨"alice".toList, 5⟩ (.response 200 (.ok "0".toList))
      ≠ processingWorkerStep ⟨"alice".toList, 5⟩ (.response 200 (.ok "1".toList)) ∧
    processingWorkerStep ⟨"alice".toList, 5⟩ (.response 200 (.ok "0".toList))
      = [.gotMineJob 5 "alice".toList, .mineError .ErrMeteorAlreadyMined] := by
  decide

/-! ## The catalog client and the discovery worker -/

/-- The loop of sends of a discovery worker appends one job per meteor, in order. -/
theorem foldl_send_eq_map (user : GoString) (meteors : List Meteor)
    (queue : List JobMineUserMeteor) :
    meteors.foldl (fun queue meteor => queue ++ [(⟨user, meteor.Id⟩ : JobMineUserMeteor)]) queue
      = queue ++ meteors.map (fun meteor => ⟨user, meteor.Id⟩) := by
  induction meteors generalizing queue with
  | nil => simp
  | cons m ms ih => simp [List.foldl_cons, ih]

/-- C2: when a discovery response has status 200 and its body parses as the integer `n`,
`getMeteors` returns an error and no items, whatever the structured parse would make of the
body: `ErrUserNotFound` for -1, `ErrDatabaseIssue` for -2, `ErrUnknownError` for every other
`n`; and the discovery worker sends no job for it. -/
theorem bare_integer_is_an_error (unmarshal : GoString → Except String (List Meteor))
    (user body : GoString) (n : Int) (queue : List JobMineUserMeteor)
    (h : Atoi body = .ok n) :
    getMeteors unmarshal (.response 200 (.ok body)) user
      = .error (if n = -1 then .ErrUserNotFound
                else if n = -2 then .ErrDatabaseIssue else .ErrUnknownError) ∧
    (discoveryWorkerStep unmarshal ⟨user⟩ (.response 200 (.ok body)) queue).2 = queue := by
  have hg : getMeteors unmarshal (.response 200 (.ok body)) user
      = .error (if n = -1 then .ErrUserNotFound
                else if n = -2 then .ErrDatabaseIssue else .ErrUnknownError) := by
    simp only [getMeteors, StatusOK, h]
    by_cases h1 : n = -1
    · simp [h1]
    · by_cases h2 : n = -2
      · simp [h2]
      · simp [h1, h2]
  refine ⟨hg, ?_⟩
  simp [discoveryWorkerStep, JobGetUserMeteors.Do, hg]

/-- Witness of C2: the body `-2`, with a structured parse that would return an item. -/
theorem bare_integer_is_an_error_witness :
    Atoi "-2".toList = .ok (-2) ∧
    getMeteors (fun _ => .ok [⟨5, 3⟩]) (.response 200 (.ok "-2".toList)) "alice".toList
      = .error .ErrDatabaseIssue ∧
    (discoveryWorkerStep (fun _ => .ok [⟨5, 3⟩]) ⟨"alice".toList⟩
      (.response 200 (.ok "-2".toList)) []).2 = [] :=
  ⟨by decide, by
    simpa using
      bare_integer_is_an_error (fun _ => .ok [⟨5, 3⟩]) "alice".toList "-2".toList (-2) []
        (by decide)⟩

/-- C7, as the code has it: for every status code and every body of a discovery response,
`getMeteors` returns `ErrBadStatus` if and only if the status code is not 200.  With status 200
the body is parsed: a body that parses as the integer `n` gives `ErrUserNotFound` for -1,
`ErrDatabaseIssue` for -2 and `ErrUnknownError` for every other `n`; a body that does not parse
as an integer is handed to the structured parse, whose items, all of them and in their order,
or whose error are the result; a body that cannot be read gives the error of the read.  None
of these is `ErrBadStatus`. -/
theorem bad_status_iff_not_200 (unmarshal : GoString → Except String (List Meteor))
    (code : Int) (bodyRead : Except String GoString) (user : GoString) :
    (getMeteors unmarshal (.response code bodyRead) user = .error .ErrBadStatus ↔ code ≠ 200) ∧
    (∀ body n, code = 200 → bodyRead = .ok body → Atoi body = .ok n →
      getMeteors unmarshal (.response code bodyRead) user
        = .error (if n = -1 then .ErrUserNotFound
                  else if n = -2 then .ErrDatabaseIssue else .ErrUnknownError)) ∧
    (∀ body e meteors, code = 200 → bodyRead = .ok body → Atoi body = .error e →
      unmarshal body = .ok meteors →
      getMeteors unmarshal (.response code bodyRead) user = .ok meteors) ∧
    (∀ body e msg, code = 200 → bodyRead = .ok body → Atoi body = .error e →
      unmarshal body = .error msg →
      getMeteors unmarshal (.response code bodyRead) user = .error (.jsonError msg)) ∧
    (∀ msg, code = 200 → bodyRead = .error msg →
      getMeteors unmarshal (.response code bodyRead) user = .error (.readError msg)) := by
  have hsentinel : ∀ body n, code = 200 → bodyRead = .ok body → Atoi body = .ok n →
      getMeteors unmarshal (.response code bodyRead) user
        = .error (if n = -1 then .ErrUserNotFound
                  else if n = -2 then .ErrDatabaseIssue else .ErrUnknownError) := by
    rintro body n rfl rfl hA
    simp only [getMeteors, StatusOK, hA]
    by_cases h1 : n = -1
    · simp [h1]
    · by_cases h2 : n = -2
      · simp [h2]
      · simp [h1, h2]
  refine ⟨?_, hsentinel, ?_, ?_, ?_⟩
  · constructor
    · intro h hc
      cases bodyRead with
      | error msg => simp [getMeteors, StatusOK, hc] at h
      | ok body =>
        cases hA : Atoi body with
        | ok n =>
          rw [hsentinel body n hc rfl hA] at h
          by_cases h1 : n = -1
          · simp [h1] at h
          · by_cases h2 : n = -2
            · simp [h2] at h
            · simp [h1, h2] at h
        | error e =>
          cases hU : unmarshal body with
          | error msg => simp [getMeteors, StatusOK, hc, hA, hU] at h
          | ok meteors => simp [getMeteors, StatusOK, hc, hA, hU] at h
    · intro hc
      simp [getMeteors, StatusOK, hc]
  · rintro body e meteors rfl rfl hA hU
    simp [getMeteors, StatusOK, hA, hU]
  · rintro body e msg rfl rfl hA hU
    simp [getMeteors, StatusOK, hA, hU]
  · rintro msg rfl rfl
    simp [getMeteors, StatusOK]

/-- Witness of C7 as amended, at status 200: a body with two items that the structured parse
returns, and the body `-1`. -/
theorem bad_status_iff_not_200_witness :
    getMeteors (fun _ => .ok [⟨5, 3⟩, ⟨6, 1⟩])
      (.response 200 (.ok "\x7b\"meteors\":[\x7b\"id\":5,\"nuggets\":3\x7d,\x7b\"id\":6,\"nuggets\":1\x7d]\x7d".toList))
      "alice".toList = .ok [⟨5, 3⟩, ⟨6, 1⟩] ∧
    getMeteors (fun _ => .ok [⟨5, 3⟩, ⟨6, 1⟩]) (.response 200 (.ok "-1".toList))
      "alice".toList = .error .ErrUserNotFound :=
  ⟨(bad_status_iff_not_200 (fun _ => .ok [⟨5, 3⟩, ⟨6, 1⟩]) 200
      (.ok "\x7b\"meteors\":[\x7b\"id\":5,\"nuggets\":3\x7d,\x7b\"id\":6,\"nuggets\":1\x7d]\x7d".toList)
      "alice".toList).2.2.1 _
      ⟨"\x7b\"meteors\":[\x7b\"id\":5,\"nuggets\":3\x7d,\x7b\"id\":6,\"nuggets\":1\x7d]\x7d".toList,
        .ErrSyntax⟩ [⟨5, 3⟩, ⟨6, 1⟩] rfl rfl (by decide) rfl,
   by
    simpa using (bad_status_iff_not_200 (fun _ => .ok [⟨5, 3⟩, ⟨6, 1⟩]) 200
      (.ok "-1".toList) "alice".toList).2.1 "-1".toList (-1) rfl rfl (by decide)⟩

/-- C7 as stated fails: status 204 is a 2xx status, and `getMeteors` returns `ErrBadStatus` for
it without parsing the body. -/
theorem status_204_is_bad_status :
    ¬ (getMeteors (fun _ => .ok [⟨5, 3⟩])
          (.response 204 (.ok "\x7b\"meteors\":[\x7b\"id\":5,\"nuggets\":3\x7d]\x7d".toList))
          "alice".toList = .error .ErrBadStatus
        ↔ ((204 : Int) < 200 ∨ (204 : Int) > 299)) := by
  decide

/-- C3: one iteration of a discovery worker on the job of account `A` sends exactly one
`JobMineUserMeteor` with user `A` and the id of the item per item that the scan returns, in the
order returned, so N items give N jobs; and it sends none when the scan returns an error. -/
theorem discovery_worker_sends_one_job_per_item
    (unmarshal : GoString → Except String (List Meteor)) (A : GoString) (x : HttpExchange)
    (queue : List JobMineUserMeteor) :
    (∀ meteors, JobGetUserMeteors.Do unmarshal ⟨A⟩ x = .ok meteors →
      (discoveryWorkerStep unmarshal ⟨A⟩ x queue).2
          = queue ++ meteors.map (fun meteor => ⟨A, meteor.Id⟩) ∧
      (discoveryWorkerStep unmarshal ⟨A⟩ x queue).2.length = queue.length + meteors.length) ∧
    (∀ err, JobGetUserMeteors.Do unmarshal ⟨A⟩ x = .error err →
      (discoveryWorkerStep unmarshal ⟨A⟩ x queue).2 = queue) := by
  constructor
  · intro meteors h
    have hq : (discoveryWorkerStep unmarshal ⟨A⟩ x queue).2
        = queue ++ meteors.map (fun meteor => ⟨A, meteor.Id⟩) := by
      simp [discoveryWorkerStep, h, foldl_send_eq_map]
    refine ⟨hq, ?_⟩
    rw [hq]
    simp
  · intro err h
    simp [discoveryWorkerStep, h]

/-- Witness of C3: account `alice` with the one item of id 5 and 3 nuggets gives exactly the
job of `alice` for item 5, and a scan that fails with a bad status gives none. -/
theorem discovery_worker_sends_one_job_per_item_witness :
    (discoveryWorkerStep (fun _ => .ok [⟨5, 3⟩]) ⟨"alice".toList⟩
      (.response 200 (.ok "\x7b\"meteors\":[\x7b\"id\":5,\"nuggets\":3\x7d]\x7d".toList)) []).2
      = [⟨"alice".toList, 5⟩] ∧
    (discoveryWorkerStep (fun _ => .ok [⟨5, 3⟩]) ⟨"alice".toList⟩
      (.response 500 (.ok "\x7b\"meteors\":[\x7b\"id\":5,\"nuggets\":3\x7d]\x7d".toList)) []).2
      = [] :=
  ⟨((discovery_worker_sends_one_job_per_item (fun _ => .ok [⟨5, 3⟩]) "alice".toList
      (.response 200 (.ok "\x7b\"meteors\":[\x7b\"id\":5,\"nuggets\":3\x7d]\x7d".toList)) []).1
      [⟨5, 3⟩] (by decide)).1,
   (discovery_worker_sends_one_job_per_item (fun _ => .ok [⟨5, 3⟩]) "alice".toList
      (.response 500 (.ok "\x7b\"meteors\":[\x7b\"id\":5,\"nuggets\":3\x7d]\x7d".toList)) []).2
      .ErrBadStatus (by decide)⟩

/-! ## Startup -/

/-- The two pool sizes are never negative when the parallelism is not. -/
theorem pool_sizes_nonneg (NumCPU : Int) (h : 0 ≤ NumCPU) :
    ¬ (NumCPU.tdiv 4 < 0 ∨ NumCPU - NumCPU.tdiv 4 < 0) := by
  rw [Int.tdiv_eq_ediv h (by decide)]
  omega

/-- With a parallelism that is not negative `main` never panics: the check of the pool sizes
tests for sizes below zero only. -/
theorem main_never_panics (u f : GoString) (fileRead : Except String GoString) (NumCPU : Int)
    (h : 0 ≤ NumCPU) (msg : String) : main u f fileRead NumCPU ≠ .panicked msg := by
  unfold main
  split
  · simp
  · simp only [if_neg (pool_sizes_nonneg NumCPU h)]
    simp

/-- C4 at one CPU: the discovery pool size computes to zero, and `main` does not panic: it
creates both queues, starts no discovery worker and one processing worker, and enters the
scheduler loop. -/
theorem one_cpu_starts_without_discovery_worker :
    (1 : Int).tdiv 4 = 0 ∧
    main "alice".toList [] (.error "unused") 1 = .running ["alice".toList] 0 1 ∧
    workersStarted 0 = 0 ∧ workersStarted 1 = 1 := by
  decide

/-- With the empty account list the scheduler loop sends no job, whatever it observes. -/
theorem schedulerRun_nil (getMeteorsCount : Int) (observations : List Observation)
    (st : SchedulerState) (hst : st = .seeding [] ∨ st = .waiting) :
    (schedulerRun [] getMeteorsCount observations st).2 = [] := by
  induction observations generalizing st with
  | nil => rfl
  | cons o os ih =>
    rcases hst with rfl | rfl
    · simp [schedulerRun, schedulerStep, ih .waiting (Or.inr rfl)]
    · by_cases ht : o.tick = true
      · simp [schedulerRun, schedulerStep, ht, ih (.seeding []) (Or.inl rfl)]
      · simp [schedulerRun, schedulerStep, ht, ih .waiting (Or.inr rfl)]

/-- C5, as the code has it: when both flags are empty `main` refuses to run: it prints the
usage and returns, before any queue is created, any worker is started or any job is submitted;
and when the account list that `main` runs with is empty, its scheduler loop never submits a
job, whatever it observes of the queue and of the ticker. -/
theorem startup_refuses_without_flags (u f : GoString)
    (fileRead : Except String GoString) (NumCPU : Int) :
    (u = [] → f = [] → main u f fileRead NumCPU = .usage) ∧
    (∀ userIDs getMeteorsCount mineMeteorsCount,
      main u f fileRead NumCPU = .running userIDs getMeteorsCount mineMeteorsCount →
      userIDs = [] →
      ∀ observations : List Observation,
        (schedulerRun userIDs getMeteorsCount observations (schedulerInit userIDs)).2 = []) := by
  refine ⟨?_, ?_⟩
  · intro hu hf
    simp [main, hu, hf]
  · intro userIDs getMeteorsCount _ _ hempty observations
    subst hempty
    exact schedulerRun_nil getMeteorsCount observations _ (Or.inl rfl)

/-- Witness of C5 as amended: no flag at all; and `-f users.txt` with a file that fails to
open, on four CPUs, over four moves of the scheduler with a tick ready at the third. -/
theorem startup_refuses_without_flags_witness :
    main [] [] (.error "unused") 4 = .usage ∧
    (schedulerRun [] 1 [⟨0, 1, false⟩, ⟨0, 1, false⟩, ⟨0, 1, true⟩, ⟨0, 1, false⟩]
      (schedulerInit [])).2 = [] :=
  ⟨(startup_refuses_without_flags [] [] (.error "unused") 4).1 rfl rfl,
   (startup_refuses_without_flags [] "users.txt".toList
      (.error "open users.txt: no such file or directory") 4).2 [] 1 3 (by decide) rfl
      [⟨0, 1, false⟩, ⟨0, 1, false⟩, ⟨0, 1, true⟩, ⟨0, 1, false⟩]⟩

/-- What `main` does when `-u` is empty and the file named by `-f` cannot be read or yields no
identifier: for a parallelism that is not negative it goes on with the empty account list. -/
theorem main_with_unusable_file (f : GoString) (fileRead : Except String GoString)
    (NumCPU : Int) (hf : f ≠ []) (hn : 0 ≤ NumCPU)
    (hfile : getUserIDsFromFile fileRead = .ok [] ∨
      ∃ err, getUserIDsFromFile fileRead = .error err) :
    main [] f fileRead NumCPU = .running [] (NumCPU.tdiv 4) (NumCPU - NumCPU.tdiv 4) := by
  unfold main
  rw [if_neg (fun hc => hf hc.2)]
  simp only [if_neg (pool_sizes_nonneg NumCPU hn)]
  rcases hfile with hok | ⟨err, herr⟩
  · simp [hf, hok]
  · simp [hf, herr]

/-- C5 as stated fails: with `-u` empty and a file that cannot be opened the account list is
empty, and `main` does not terminate: it creates the queues and starts one discovery worker
and three processing workers. -/
theorem empty_account_list_still_runs :
    main [] "users.txt".toList (.error "open users.txt: no such file or directory") 4
      = .running [] 1 3 ∧
    workersStarted 1 = 1 ∧ workersStarted 3 = 3 := by
  decide

/-! ## The account list file -/

/-- The loop of `getUserIDsFromFile` keeps the lines that are not the empty string and trims
each of them. -/
theorem foldl_trim_eq (users result : List GoString) :
    users.foldl (fun result str => if str = [] then result else result ++ [TrimSpace str]) result
      = result ++ (users.filter (fun str => decide (str ≠ []))).map TrimSpace := by
  induction users generalizing result with
  | nil => simp
  | cons str strs ih =>
    by_cases h : str = []
    · simp [List.foldl_cons, h, ih]
    · simp [List.foldl_cons, h, ih]

/-- What `getUserIDsFromFile` returns for a file that was read: the trimmed content, in file
order, of every line that is not the empty string. -/
theorem getUserIDsFromFile_ok (text : GoString) :
    getUserIDsFromFile (.ok text)
      = .ok (((Split text '\n').filter (fun str => decide (str ≠ []))).map TrimSpace) := by
  simp [getUserIDsFromFile, foldl_trim_eq]

/-- C8 on a file with CRLF line ends and a blank line: the line holding only a carriage return
is not skipped, and the empty identifier is returned for it. -/
theorem blank_crlf_line_gives_empty_identifier :
    getUserIDsFromFile (.ok "alice\r\n\r\nbob\r\n".toList)
      = .ok ["alice".toList, [], "bob".toList] := by
  decide

/-! ## The scheduler loop -/

/-- Without a discovery worker no possible observation lets a send complete. -/
theorem sendCompletes_without_worker (getMeteorsCount : Int) (o : Observation)
    (hc : getMeteorsCount ≤ 0) (ho : o.possible getMeteorsCount = true) :
    sendCompletes getMeteorsCount o = false := by
  simp only [Observation.possible, workersStarted, Bool.and_eq_true, decide_eq_true_eq] at ho
  have h0 : getMeteorsCount.toNat = 0 := Int.toNat_eq_zero.mpr hc
  simp only [sendCompletes, Bool.or_eq_false_iff, decide_eq_false_iff_not]
  omega

/-- Without a discovery worker the scheduler stays blocked in its first send for ever: it
sends no job and never reaches the wait for the ticker. -/
theorem schedulerRun_blocked (userIDs : List GoString) (getMeteorsCount : Int)
    (user : GoString) (rest : List GoString) (observations : List Observation)
    (hc : getMeteorsCount ≤ 0) (ho : ∀ o ∈ observations, o.possible getMeteorsCount = true) :
    schedulerRun userIDs getMeteorsCount observations (.seeding (user :: rest))
      = (.seeding (user :: rest), []) := by
  induction observations with
  | nil => rfl
  | cons o os ih =>
    have hs := sendCompletes_without_worker getMeteorsCount o hc (ho o (by simp))
    have ih' := ih (fun o' ho' => ho o' (by simp [ho']))
    simp [schedulerRun, schedulerStep, hs, ih']

/-- When every send completes, the scheduler sends from inside the inner loop one job per entry
still to submit, in order, and then blocks on the ticker. -/
theorem schedulerRun_seeding (userIDs rest : List GoString) (getMeteorsCount : Int)
    (observations : List Observation) (hl : observations.length = rest.length + 1)
    (ho : ∀ o ∈ observations, sendCompletes getMeteorsCount o = true) :
    schedulerRun userIDs getMeteorsCount observations (.seeding rest)
      = (.waiting, rest.map (fun user => ⟨user⟩)) := by
  induction rest generalizing observations with
  | nil =>
    match observations, hl with
    | [o], _ => simp [schedulerRun, schedulerStep]
  | cons user rest ih =>
    match observations, hl, ho with
    | o :: os, hl, ho =>
      have hs : sendCompletes getMeteorsCount o = true := ho o (by simp)
      have ih' := ih os (by simpa using hl) (fun o' ho' => ho o' (by simp [ho']))
      simp [schedulerRun, schedulerStep, hs, ih']

/-- Whatever the scheduler observes, the jobs it sends are an initial part of the jobs still
to send in the current cycle followed by the jobs of whole cycles over the account list: no
entry is skipped, the order is that of the list, and nothing but the list decides the jobs. -/
theorem schedulerRun_sends_in_order (userIDs : List GoString) (getMeteorsCount : Int)
    (observations : List Observation) (st : SchedulerState) :
    ∃ k : Nat, (schedulerRun userIDs getMeteorsCount observations st).2 <+:
      pendingJobs st ++
        (List.replicate k (userIDs.map (fun user => (⟨user⟩ : JobGetUserMeteors)))).flatten := by
  induction observations generalizing st with
  | nil => exact ⟨0, by simp [schedulerRun]⟩
  | cons o os ih =>
    cases st with
    | waiting =>
      by_cases ht : o.tick = true
      · obtain ⟨k, hk⟩ := ih (.seeding userIDs)
        refine ⟨k + 1, ?_⟩
        simpa [schedulerRun, schedulerStep, ht, pendingJobs, List.replicate_succ] using hk
      · obtain ⟨k, hk⟩ := ih .waiting
        refine ⟨k, ?_⟩
        simpa [schedulerRun, schedulerStep, ht, pendingJobs] using hk
    | seeding rest =>
      cases rest with
      | nil =>
        obtain ⟨k, hk⟩ := ih .waiting
        refine ⟨k, ?_⟩
        simpa [schedulerRun, schedulerStep, pendingJobs] using hk
      | cons user rest =>
        by_cases hs : sendCompletes getMeteorsCount o = true
        · obtain ⟨k, hk⟩ := ih (.seeding rest)
          refine ⟨k, ?_⟩
          simpa [schedulerRun, schedulerStep, hs, pendingJobs, List.prefix_cons_inj] using hk
        · obtain ⟨k, hk⟩ := ih (.seeding (user :: rest))
          refine ⟨k, ?_⟩
          simpa [schedulerRun, schedulerStep, hs, pendingJobs] using hk

/-- C9 on one CPU: `main` runs with no discovery worker and a discovery queue of capacity
zero, so that under every observation the program can make the scheduler stays blocked in the
send of its first job: it submits no job for the account `alice` and never moves to
Waiting. -/
theorem scheduler_blocks_on_one_cpu (observations : List Observation)
    (ho : ∀ o ∈ observations, o.possible 0 = true) :
    main "alice".toList [] (.error "unused") 1 = .running ["alice".toList] 0 1 ∧
    workersStarted 0 = 0 ∧
    schedulerRun ["alice".toList] 0 observations (schedulerInit ["alice".toList])
      = (.seeding ["alice".toList], []) :=
  ⟨by decide, by decide,
    schedulerRun_blocked ["alice".toList] 0 "alice".toList [] observations (le_refl 0) ho⟩

/-- Witness of C9 on one CPU: three moves, with ticks ready at the second and the third. -/
theorem scheduler_blocks_on_one_cpu_witness :
    schedulerRun ["alice".toList] 0 [⟨0, 0, false⟩, ⟨0, 0, true⟩, ⟨0, 0, true⟩]
      (schedulerInit ["alice".toList]) = (.seeding ["alice".toList], []) :=
  (scheduler_blocks_on_one_cpu [⟨0, 0, false⟩, ⟨0, 0, true⟩, ⟨0, 0, true⟩] (by decide)).2.2

/-! ## `obtain-userids` -/

/-- The first loop of `getAll3LetterCombinations` builds the alphabet. -/
theorem charsLoop_eq : charsLoop 'a'.toNat [] = "abcdefghijklmnopqrstuvwxyz".toList := by
  have hz : 'z'.toNat = 122 := rfl
  have ha : 'a'.toNat = 97 := rfl
  rw [ha]
  iterate 27
    (rw [charsLoop]
     simp only [hz, Nat.reduceLeDiff, ite_true, ite_false, Nat.reduceAdd, List.nil_append,
       List.append_assoc, List.singleton_append, List.cons_append])
  decide

/-- A loop that appends `F x` for each `x` of `l` appends the concatenation of all of them. -/
theorem foldl_append_eq_flatMap {α β : Type} (F : α → List β) (l : List α) (acc : List β) :
    l.foldl (fun acc x => acc ++ F x) acc = acc ++ l.flatMap F := by
  induction l generalizing acc with
  | nil => simp
  | cons a l ih => simp [List.foldl_cons, ih, List.flatMap_cons]

/-- The three nested loops over `cs` list the triples of `cs`, the last position varying
fastest. -/
theorem nested_loops_eq (cs : List Char) :
    cs.foldl (fun combinations x =>
      cs.foldl (fun combinations y =>
        cs.foldl (fun combinations z => combinations ++ [[x, y, z]]) combinations)
        combinations) []
    = cs.flatMap (fun x => cs.flatMap (fun y => cs.map (fun z => [x, y, z]))) := by
  have h3 : ∀ (x y : Char) (acc : List GoString),
      cs.foldl (fun combinations z => combinations ++ [[x, y, z]]) acc
        = acc ++ cs.map (fun z => [x, y, z]) := by
    intro x y acc
    rw [foldl_append_eq_flatMap (fun z => [[x, y, z]]) cs acc]
    congr 1
    induction cs with
    | nil => rfl
    | cons c cs ih => simpa [List.flatMap_cons] using ih
  have h2 : ∀ (x : Char) (acc : List GoString),
      cs.foldl (fun combinations y =>
        cs.foldl (fun combinations z => combinations ++ [[x, y, z]]) combinations) acc
        = acc ++ cs.flatMap (fun y => cs.map (fun z => [x, y, z])) := by
    intro x acc
    simp only [h3]
    exact foldl_append_eq_flatMap (fun y => cs.map (fun z => [x, y, z])) cs acc
  simp only [h2]
  simpa using foldl_append_eq_flatMap
    (fun x => cs.flatMap (fun y => cs.map (fun z => [x, y, z]))) cs []

/-- The result of `getAll3LetterCombinations` as the triples of the alphabet. -/
theorem getAll3LetterCombinations_eq : getAll3LetterCombinations
    = "abcdefghijklmnopqrstuvwxyz".toList.flatMap (fun x =>
        "abcdefghijklmnopqrstuvwxyz".toList.flatMap (fun y =>
          "abcdefghijklmnopqrstuvwxyz".toList.map (fun z => [x, y, z]))) := by
  unfold getAll3LetterCombinations
  simp only [charsLoop_eq]
  exact nested_loops_eq _

/-- There are `n * (n * n)` triples of a list of length `n`. -/
theorem triples_length (cs : List Char) :
    (cs.flatMap (fun x => cs.flatMap (fun y => cs.map (fun z => [x, y, z])))).length
      = cs.length * (cs.length * cs.length) := by
  simp [List.length_flatMap, Function.comp_def]

/-- The triples of `cs` are the lists of three elements of `cs`. -/
theorem triples_mem (cs : List Char) (s : GoString) :
    s ∈ cs.flatMap (fun x => cs.flatMap (fun y => cs.map (fun z => [x, y, z])))
      ↔ ∃ x ∈ cs, ∃ y ∈ cs, ∃ z ∈ cs, s = [x, y, z] := by
  simp only [List.mem_flatMap, List.mem_map]
  constructor
  · rintro ⟨x, hx, y, hy, z, hz, rfl⟩
    exact ⟨x, hx, y, hy, z, hz, rfl⟩
  · rintro ⟨x, hx, y, hy, z, hz, rfl⟩
    exact ⟨x, hx, y, hy, z, hz, rfl⟩

/-- The triples of a strictly increasing list come in strictly increasing lexicographic
order. -/
theorem triples_pairwise (cs : List Char) (h : cs.Pairwise (· < ·)) :
    (cs.flatMap (fun x => cs.flatMap (fun y => cs.map (fun z => [x, y, z])))).Pairwise
      (List.Lex (· < ·)) := by
  rw [List.pairwise_flatMap]
  constructor
  · intro x _
    rw [List.pairwise_flatMap]
    constructor
    · intro y _
      rw [List.pairwise_map]
      exact h.imp (fun hzz => List.Lex.cons (List.Lex.cons (List.Lex.rel hzz)))
    · refine h.imp ?_
      intro y y' hyy s hs t ht
      simp only [List.mem_map] at hs ht
      obtain ⟨z, _, rfl⟩ := hs
      obtain ⟨z', _, rfl⟩ := ht
      exact List.Lex.cons (List.Lex.rel hyy)
  · refine h.imp ?_
    intro x x' hxx s hs t ht
    simp only [List.mem_flatMap, List.mem_map] at hs ht
    obtain ⟨y, _, z, _, rfl⟩ := hs
    obtain ⟨y', _, z', _, rfl⟩ := ht
    exact List.Lex.rel hxx

/-- No string is below itself in the lexicographic order. -/
theorem lex_irrefl : ∀ (s : GoString), ¬ List.Lex (· < ·) s s
  | [], h => by cases h
  | c :: s, h => by
    cases h with
    | cons h => exact lex_irrefl s h
    | rel h => exact lt_irrefl c h

/-- The triples of a list that ends in `c` end in the triple of `c`. -/
theorem triples_getLast (cs : List Char) (c : Char) :
    ((cs ++ [c]).flatMap (fun x => (cs ++ [c]).flatMap (fun y =>
      (cs ++ [c]).map (fun z => [x, y, z])))).getLast? = some [c, c, c] := by
  simp [List.flatMap_append, List.map_append, List.getLast?_append]

/-- The alphabet is strictly increasing. -/
theorem alphabet_sorted : "abcdefghijklmnopqrstuvwxyz".toList.Pairwise (· < ·) := by decide

/-- The alphabet holds exactly the characters from `a` to `z`. -/
theorem alphabet_mem (c : Char) :
    c ∈ "abcdefghijklmnopqrstuvwxyz".toList ↔ 'a' ≤ c ∧ c ≤ 'z' := by
  constructor
  · intro h
    have h' : c ∈ ['a', 'b', 'c', 'd', 'e', 'f', 'g', 'h', 'i', 'j', 'k', 'l', 'm', 'n', 'o',
        'p', 'q', 'r', 's', 't', 'u', 'v', 'w', 'x', 'y', 'z'] := h
    simp only [List.mem_cons, List.mem_singleton, List.not_mem_nil, or_false] at h'
    rcases h' with h | h | h | h | h | h | h | h | h | h | h | h | h | h | h | h | h | h | h
      | h | h | h | h | h | h | h <;> subst h <;> decide
  · rintro ⟨h1, h2⟩
    have e : Char.ofNat c.toNat = c := Char.ofNat_toNat c
    have h1' : 97 ≤ c.toNat := h1
    have h2' : c.toNat ≤ 122 := h2
    rw [← e]
    generalize c.toNat = n at h1' h2'
    interval_cases n <;> decide

/-- C10: `getAll3LetterCombinations` returns 26^3 = 17576 strings; a string is in the result
exactly when it has length 3 and all its characters are between `a` and `z`; the result has
no duplicate, so every such string occurs exactly once; the result is in strictly increasing
lexicographic order; its first element is `aaa` and its last `zzz`. -/
theorem getAll3LetterCombinations_spec :
    getAll3LetterCombinations.length = 26 ^ 3 ∧
    getAll3LetterCombinations.length = 17576 ∧
    (∀ s : GoString, s ∈ getAll3LetterCombinations ↔
      s.length = 3 ∧ ∀ c ∈ s, 'a' ≤ c ∧ c ≤ 'z') ∧
    getAll3LetterCombinations.Nodup ∧
    (∀ s : GoString, s.length = 3 → (∀ c ∈ s, 'a' ≤ c ∧ c ≤ 'z') →
      getAll3LetterCombinations.countP (fun t => decide (t = s)) = 1) ∧
    getAll3LetterCombinations.Pairwise (List.Lex (· < ·)) ∧
    getAll3LetterCombinations.head? = some "aaa".toList ∧
    getAll3LetterCombinations.getLast? = some "zzz".toList := by
  have hlen : getAll3LetterCombinations.length = 17576 := by
    rw [getAll3LetterCombinations_eq, triples_length]
    rfl
  have hmem : ∀ s : GoString, s ∈ getAll3LetterCombinations ↔
      s.length = 3 ∧ ∀ c ∈ s, 'a' ≤ c ∧ c ≤ 'z' := by
    intro s
    rw [getAll3LetterCombinations_eq, triples_mem]
    constructor
    · rintro ⟨x, hx, y, hy, z, hz, rfl⟩
      refine ⟨rfl, ?_⟩
      intro c hc
      simp only [List.mem_cons, List.mem_singleton, List.not_mem_nil, or_false] at hc
      rcases hc with rfl | rfl | rfl
      · exact (alphabet_mem _).1 hx
      · exact (alphabet_mem _).1 hy
      · exact (alphabet_mem _).1 hz
    · rintro ⟨hl, hc⟩
      match s, hl, hc with
      | [x, y, z], _, hc =>
        exact ⟨x, (alphabet_mem x).2 (hc x (by simp)), y, (alphabet_mem y).2 (hc y (by simp)),
          z, (alphabet_mem z).2 (hc z (by simp)), rfl⟩
  have hsorted : getAll3LetterCombinations.Pairwise (List.Lex (· < ·)) := by
    rw [getAll3LetterCombinations_eq]
    exact triples_pairwise _ alphabet_sorted
  have hnodup : getAll3LetterCombinations.Nodup := by
    unfold List.Nodup
    refine hsorted.imp ?_
    intro s t hst heq
    subst heq
    exact lex_irrefl _ hst
  refine ⟨by rw [hlen]; rfl, hlen, hmem, hnodup, ?_, hsorted, ?_, ?_⟩
  · intro s hl hc
    exact List.count_eq_one_of_mem hnodup ((hmem s).2 ⟨hl, hc⟩)
  · rw [getAll3LetterCombinations_eq]
    rfl
  · rw [getAll3LetterCombinations_eq]
    exact triples_getLast "abcdefghijklmnopqrstuvwxyz".toList.dropLast 'z'

end NeosAutominer
